import Mathlib

/-!
Shallow embedding of the configuration-admission and secrets-bootstrap
subsystem: the Ansible filter plugin `filter_plugins/validation.py`
(validator registry) and the standalone script
`scripts/generate_passwords.py` (secrets generator).

Python strings are modelled as `List Char` (ASCII character classes, as in
the source regexes).  Dynamically-typed scalar inputs — the value domain the
validator interface admits (string, number, boolean, null) — are modelled by
`PyVal`.  Python floats are modelled by `PyFloatV`: a finite float is carried
as the exact rational value it denotes, and the three non-finite values are
explicit constructors.  Machine randomness (`secrets.choice`,
`secrets.token_urlsafe`, `crypt.mksalt`) is modelled by oracle functions
`Nat → Nat` supplying the index of each draw, and the SHA-512-crypt digest
primitive is a parameter `digest : List Char → List Char → List Char` of
every definition that uses it, so every theorem holds for an arbitrary
digest function.
-/

/-- Convert a Lean string literal to the `List Char` representation used for
Python strings throughout this development. -/
def s2l (s : String) : List Char := s.data

/-- The whitespace characters stripped by Python's `str.strip()` and by
`int()` on strings (ASCII subset; the source only faces ASCII input). -/
def ws_chars : List Char := [' ', '\t', '\n', '\r', '\x0b', '\x0c']

/-- `c` is a Python whitespace character. -/
def isSpacePy (c : Char) : Bool := decide (c ∈ ws_chars)

/-- `str.strip()`: drop leading and trailing whitespace. -/
def stripPy (l : List Char) : List Char :=
  ((l.dropWhile isSpacePy).reverse.dropWhile isSpacePy).reverse

/-- Model of the non-finite Python float values plus finite floats carried as
the exact rational they denote. -/
inductive PyFloatV where
  | finite (q : ℚ)
  | inf
  | negInf
  | nan
deriving DecidableEq

/-- The dynamically-typed scalar values the validator interface admits
(string, integer, boolean, float, null). -/
inductive PyVal where
  | str (s : List Char)
  | int (n : ℤ)
  | bool (b : Bool)
  | float (f : PyFloatV)
  | noneV
deriving DecidableEq

/-- The Python exceptions `int()` can raise on a scalar argument. -/
inductive PyExc where
  | valueError
  | typeError
  | overflowError
deriving DecidableEq

/-- Decimal digit character for `n < 10` (defaulting to `'9'` out of range,
which is never reached by `natReprAux`). -/
def digitChar : ℕ → Char
  | 0 => '0' | 1 => '1' | 2 => '2' | 3 => '3' | 4 => '4'
  | 5 => '5' | 6 => '6' | 7 => '7' | 8 => '8' | _ => '9'

/-- Fuel-driven decimal representation of a natural number (the fuel makes
the recursion structural so that the kernel can evaluate it). -/
def natReprAux : ℕ → ℕ → List Char
  | 0, _ => []
  | fuel + 1, n =>
    if n < 10 then [digitChar n]
    else natReprAux fuel (n / 10) ++ [digitChar (n % 10)]

/-- Decimal representation of a natural number, as `str()` renders it. -/
def natRepr (n : ℕ) : List Char := natReprAux (n + 1) n

/-- Decimal representation of an integer, as Python's `str(int)` renders it. -/
def intRepr (i : ℤ) : List Char :=
  if i < 0 then '-' :: natRepr i.natAbs else natRepr i.natAbs

/-- Rendering of a Python float by `str()`.  The non-finite values render
exactly as in Python; a finite value is rendered as `num/den` of its exact
rational — Python's shortest-round-trip decimal formatting is not modelled,
and no claim depends on it (floats only pass through `str()` inside
`sanitize_input`, whose claims never exercise float formatting). -/
def floatRepr : PyFloatV → List Char
  | .finite q => intRepr q.num ++ '/' :: natRepr q.den
  | .inf => s2l ("inf")
  | .negInf => s2l ("-inf")
  | .nan => s2l ("nan")

/-- Python `str()` on a scalar value. -/
def pyStr : PyVal → List Char
  | .str s => s
  | .int n => intRepr n
  | .bool b => if b then s2l ("True") else s2l ("False")
  | .float f => floatRepr f
  | .noneV => s2l ("None")

/-- Digit-sequence parser for `int(str)`: digits with single underscores
allowed between digits (Python 3.6+ numeric literals).  `acc` is the value
parsed so far and `prevU` records whether the previous character was an
underscore (an underscore may not be doubled or trailing). -/
def goDigits (acc : ℕ) (prevU : Bool) : List Char → Option ℕ
  | [] => if prevU then none else some acc
  | c :: rest =>
    if c.isDigit then goDigits (acc * 10 + (c.toNat - 48)) false rest
    else if c = '_' then (if prevU then none else goDigits acc true rest)
    else none

/-- Parse a non-empty digit sequence (first character must be a digit). -/
def parseDigitsU : List Char → Option ℕ
  | [] => none
  | c :: rest => if c.isDigit then goDigits (c.toNat - 48) false rest else none

/-- Python `int()` applied to a string: strip surrounding whitespace, allow
one optional sign, then a digit sequence; anything else raises
`ValueError` (modelled as `none`). -/
def parseIntStr (s : List Char) : Option ℤ :=
  match stripPy s with
  | '+' :: rest => (parseDigitsU rest).map (fun n => (n : ℤ))
  | '-' :: rest => (parseDigitsU rest).map (fun n => -(n : ℤ))
  | rest => (parseDigitsU rest).map (fun n => (n : ℤ))

/-- Truncation toward zero of a rational, as Python `int(float)` behaves on
the finite float the rational models. -/
def ratTrunc (q : ℚ) : ℤ := q.num.sign * (q.num.natAbs / q.den : ℕ)

/-- Python `int()` coercion on a scalar value, with the exception it raises
on failure.  `int(bool)` uses the bool-int subclassing, `int(float)`
truncates toward zero, `int()` of an infinite float raises `OverflowError`,
of `nan` raises `ValueError`, of `None` raises `TypeError`, and of a
non-numeric string raises `ValueError`. -/
def pyIntCoerce : PyVal → Except PyExc ℤ
  | .int n => .ok n
  | .bool b => .ok (if b then 1 else 0)
  | .float (.finite q) => .ok (ratTrunc q)
  | .float .inf => .error .overflowError
  | .float .negInf => .error .overflowError
  | .float .nan => .error .valueError
  | .noneV => .error .typeError
  | .str s =>
    match parseIntStr s with
    | some n => .ok n
    | none => .error .valueError

/-- ASCII alphanumeric, the character class `[a-zA-Z0-9]` of the source
regexes. -/
def isAlnum (c : Char) : Bool := c.isAlpha || c.isDigit

/-- Python `re` end-of-pattern anchor semantics: `re.match(r'^X$', s)`
succeeds iff the core recognizer `X` matches all of `s`, or all of `s`
minus a single trailing newline (`$` also matches just before a newline at
the end of the string). -/
def reMatchEol (core : List Char → Bool) (s : List Char) : Bool :=
  core s || (decide (s.getLast? = some '\n') && core s.dropLast)

/-- Core of the regex `[78]\.[0-9]`: one major digit in {7,8}, a dot, one
decimal digit. -/
def phpCore : List Char → Bool
  | [a, b, c] => (a == '7' || a == '8') && b == '.' && c.isDigit
  | _ => false

/-- `validate_php_version`: strings only, matched against `^[78]\.[0-9]$`. -/
def validate_php_version : PyVal → Bool
  | .str s => reMatchEol phpCore s
  | _ => false

/-- Core of the regex `[a-zA-Z0-9_]+`: non-empty, word characters only. -/
def dbnameCore (l : List Char) : Bool :=
  !l.isEmpty && l.all (fun c => isAlnum c || c == '_')

/-- `validate_database_name`: non-empty string, at most 64 characters,
matched against `^[a-zA-Z0-9_]+$`. -/
def validate_database_name : PyVal → Bool
  | .str s =>
    if s.isEmpty then false
    else if s.length > 64 then false
    else reMatchEol dbnameCore s
  | _ => false

/-- Split a character list at every occurrence of `ch` (like
`str.split(ch)`); used to decide the dot-separated label grammar. -/
def splitOnChar (ch : Char) : List Char → List (List Char)
  | [] => [[]]
  | c :: rest =>
    match splitOnChar ch rest with
    | [] => [[c]]
    | h :: t => if c == ch then [] :: h :: t else (c :: h) :: t

/-- One domain label per the regex
`[a-zA-Z0-9]([a-zA-Z0-9\-]{0,61}[a-zA-Z0-9])?`: 1–63 characters, first and
last alphanumeric, interior alphanumeric or hyphen. -/
def validLabel (l : List Char) : Bool :=
  !l.isEmpty && decide (l.length ≤ 63) &&
  (match l.head? with | some c => isAlnum c | _ => false) &&
  (match l.getLast? with | some c => isAlnum c | _ => false) &&
  l.all (fun c => isAlnum c || c == '-')

/-- Core of the domain regex: dot-separated valid labels (the language of
`(label\.)*label`). -/
def domainCore (s : List Char) : Bool := (splitOnChar '.' s).all validLabel

/-- `validate_domain_name`: non-empty string, at most 253 characters,
matched against the dot-separated label regex. -/
def validate_domain_name : PyVal → Bool
  | .str s =>
    if s.isEmpty then false
    else if s.length > 253 then false
    else reMatchEol domainCore s
  | _ => false

/-- The reserved-port blocklist of `validate_port`. -/
def reserved_ports : List ℤ := [22, 25, 53, 80, 110, 143, 443, 993, 995]

/-- The two web-server ports exempted from the blocklist. -/
def web_ports : List ℤ := [80, 443]

/-- The integer-range and reserved-set checks of `validate_port`, applied
after `int()` coercion succeeds. -/
def portDecide (n : ℤ) : Bool :=
  if n < 1 ∨ n > 65535 then false
  else if n ∈ reserved_ports ∧ n ∉ web_ports then false
  else true

/-- `validate_port`: coerce with `int()`; `ValueError`/`TypeError` are
caught and yield `False`; any other exception (the `OverflowError` of an
infinite float) propagates; then range and reserved-set checks. -/
def validate_port (v : PyVal) : Except PyExc Bool :=
  match pyIntCoerce v with
  | .error e => if e = .valueError ∨ e = .typeError then .ok false else .error e
  | .ok n => .ok (portDecide n)

/-- Whether a character is excluded by the regex class `[^\s/$.?#]`. -/
def gitFirstCharOk (c : Char) : Bool :=
  !isSpacePy c && !(c == '/') && !(c == '$') && !(c == '.') && !(c == '?') && !(c == '#')

/-- Strip an `https?://` scheme (greedy `s?` with backtracking recognizes
exactly the two literal schemes). -/
def stripHttpScheme (s : List Char) : Option (List Char) :=
  if (s2l ("https://")).isPrefixOf s then some (s.drop 8)
  else if (s2l ("http://")).isPrefixOf s then some (s.drop 7)
  else none

/-- `l` ends with `.git` and everything before that suffix contains no
whitespace (the language of `[^\s]*\.git`). -/
def endsDotGitNoWs (l : List Char) : Bool :=
  decide (4 ≤ l.length) && (l.drop (l.length - 4) == s2l (".git")) &&
  (l.take (l.length - 4)).all (fun c => !isSpacePy c)

/-- Core of `https?://[^\s/$.?#].[^\s]*\.git`. -/
def gitHttpsCore (s : List Char) : Bool :=
  match stripHttpScheme s with
  | none => false
  | some r =>
    match r with
    | c1 :: c2 :: rest => gitFirstCharOk c1 && !(c2 == '\n') && endsDotGitNoWs rest
    | _ => false

/-- Core of `git@[^\s/$.?#].[^\s]*:[^\s]*\.git`: after the literal `git@`
and the two single-character classes, the remainder must end in `.git`,
contain only non-whitespace before that suffix, and contain a colon
separating the host part from the path part. -/
def gitSshCore (s : List Char) : Bool :=
  if (s2l ("git@")).isPrefixOf s then
    match s.drop 4 with
    | c1 :: c2 :: rest =>
      gitFirstCharOk c1 && !(c2 == '\n') && endsDotGitNoWs rest &&
      (rest.take (rest.length - 4)).contains ':'
    | _ => false
  else false

/-- Core of `https?://github\.com/[^/]+/[^/]+/?` (and the analogous GitLab
pattern via the `host` argument): two non-empty slash-free path segments
with an optional trailing slash. -/
def gitBareRepoCore (host : List Char) (s : List Char) : Bool :=
  match stripHttpScheme s with
  | none => false
  | some r =>
    if (host ++ [ '/' ]).isPrefixOf r then
      match splitOnChar '/' (r.drop (host.length + 1)) with
      | [a, b] => !a.isEmpty && !b.isEmpty
      | [a, b, t] => !a.isEmpty && !b.isEmpty && t.isEmpty
      | _ => false
    else false

/-- Union of the four git-URL patterns. -/
def gitUrlCore (s : List Char) : Bool :=
  gitHttpsCore s || gitSshCore s ||
  gitBareRepoCore (s2l ("github.com")) s || gitBareRepoCore (s2l ("gitlab.com")) s

/-- `validate_git_url`: non-empty string matching at least one of the four
patterns. -/
def validate_git_url : PyVal → Bool
  | .str s => if s.isEmpty then false else reMatchEol gitUrlCore s
  | _ => false

/-- `validate_password_strength`: string of length at least 8 containing an
uppercase letter, a lowercase letter, and a digit. -/
def validate_password_strength : PyVal → Bool
  | .str s =>
    decide (8 ≤ s.length) && s.any (fun c => c.isUpper) &&
    s.any (fun c => c.isLower) && s.any (fun c => c.isDigit)
  | _ => false

/-- Character class `[a-zA-Z0-9._%+-]` of the email local part. -/
def emailLocalChar (c : Char) : Bool :=
  isAlnum c || c == '.' || c == '_' || c == '%' || c == '+' || c == '-'

/-- Decide `[a-zA-Z0-9.-]+\.[a-zA-Z]{2,}` on the part after the `@`: the
segment after the last dot is the TLD (at least two letters), and the
non-empty part before it uses only alphanumerics, dots and hyphens. -/
def emailDomOk (rest : List Char) : Bool :=
  let segs := splitOnChar '.' rest
  let t := (segs.getLast?).getD []
  let ds := segs.dropLast
  decide (2 ≤ segs.length) && decide (2 ≤ t.length) &&
  t.all (fun c => c.isAlpha) &&
  ds.all (fun d => d.all (fun c => isAlnum c || c == '-')) &&
  !(ds == [([] : List Char)])

/-- Core of the email regex `[a-zA-Z0-9._%+-]+@[a-zA-Z0-9.-]+\.[a-zA-Z]{2,}`:
exactly one `@` (both classes exclude it), non-empty local part, and a
well-formed domain with TLD. -/
def emailCore (s : List Char) : Bool :=
  match splitOnChar '@' s with
  | [lp, rest] => !lp.isEmpty && lp.all emailLocalChar && emailDomOk rest
  | _ => false

/-- `validate_email`: strings matched against the permissive email regex. -/
def validate_email : PyVal → Bool
  | .str s => reMatchEol emailCore s
  | _ => false

/-- The characters stripped by `sanitize_input`. -/
def dangerous_chars : List Char :=
  ['\x60', '$', '|', '&', ';', '(', ')', '\x7b', '\x7d', '<', '>']

/-- One step of the source's replace loop: `s.replace(c, '')` deletes every
occurrence of `c`. -/
def replaceDel (l : List Char) (c : Char) : List Char :=
  l.filter (fun x => !(x == c))

/-- `sanitize_input`: non-string input is returned stringified unchanged;
string input has every dangerous character deleted and is then stripped. -/
def sanitize_input (v : PyVal) : List Char :=
  match v with
  | .str s => stripPy (dangerous_chars.foldl replaceDel s)
  | _ => pyStr v

/-- Python string equality against a string constant for a scalar value
(`==` between different types is `False`, never an error). -/
def pyEqStr (v : PyVal) (s : List Char) : Bool :=
  match v with
  | .str t => t == s
  | _ => false

/-- `string.ascii_letters`: lowercase then uppercase ASCII letters. -/
def ascii_letters : List Char :=
  s2l ("abcdefghijklmnopqrstuvwxyzABCDEFGHIJKLMNOPQRSTUVWXYZ")

/-- `string.digits`. -/
def digit_chars : List Char := s2l ("0123456789")

/-- High-complexity password alphabet: letters, digits and the 8 symbols. -/
def password_chars_high : List Char := ascii_letters ++ digit_chars ++ s2l ("!@#$%^&*")

/-- Medium/default password alphabet: letters and digits. -/
def password_chars_medium : List Char := ascii_letters ++ digit_chars

/-- `secrets.choice` on a list, with the random draw supplied as an oracle
index (reduced modulo the list length; the list is never empty here). -/
def choiceList (l : List Char) (k : ℕ) : Char := l.getD (k % l.length) 'a'

/-- `generate_password(length, complexity)`: select the alphabet from the
complexity value (`'high'`, `'medium'`, or anything else defaulting to the
medium alphabet) and draw `n` characters via the oracle `r`. -/
def generate_password (n : ℕ) (complexity : PyVal) (r : ℕ → ℕ) : List Char :=
  let characters :=
    if pyEqStr complexity (s2l ("high")) then password_chars_high
    else if pyEqStr complexity (s2l ("medium")) then password_chars_medium
    else password_chars_medium
  (List.range n).map (fun i => choiceList characters (r i))

/-- URL-safe base64 alphabet of `secrets.token_urlsafe`. -/
def urlsafe_chars : List Char := ascii_letters ++ digit_chars ++ s2l ("-_")

/-- `secrets.token_urlsafe(nbytes)`: a URL-safe token whose length is that
of the unpadded base64 encoding of `nbytes` random bytes, with each
character drawn via the oracle. -/
def token_urlsafe (nbytes : ℕ) (r : ℕ → ℕ) : List Char :=
  (List.range ((4 * nbytes + 2) / 3)).map (fun i => choiceList urlsafe_chars (r i))

/-- Salt alphabet of `crypt.mksalt` (letters, digits, `.` and `/`). -/
def salt_chars : List Char := ascii_letters ++ digit_chars ++ s2l ("./")

/-- `crypt.mksalt(crypt.METHOD_SHA512)`: 16 fresh random salt characters
(the `$6$` method marker is added by `cryptCrypt`). -/
def mksalt (r : ℕ → ℕ) : List Char :=
  (List.range 16).map (fun i => choiceList salt_chars (r i))

/-- `crypt.crypt(pw, salt)` for SHA-512-crypt: the self-describing output
`$6$<salt>$<digest>`, with the digest primitive abstracted as `digest`. -/
def cryptCrypt (digest : List Char → List Char → List Char)
    (pw saltv : List Char) : List Char :=
  s2l ("$6$") ++ saltv ++ '$' :: digest pw saltv

/-- Extract the embedded 16-character salt from a SHA-512-crypt hash
string. -/
def extractSalt (h : List Char) : List Char := (h.drop 3).take 16

/-- SHA-512-crypt verification: re-hash the plaintext with the salt
embedded in the hash and compare. -/
def cryptVerify (digest : List Char → List Char → List Char)
    (pw h : List Char) : Bool :=
  cryptCrypt digest pw (extractSalt h) == h

/-- `hash_password(password)`: crypt with a freshly generated salt. -/
def hash_password (digest : List Char → List Char → List Char)
    (pw : List Char) (r : ℕ → ℕ) : List Char :=
  cryptCrypt digest pw (mksalt r)

/-- The independent random streams consumed by one invocation of the
secrets generator. -/
structure Entropy where
  mysqlR : ℕ → ℕ
  postgresR : ℕ → ℕ
  adminerR : ℕ → ℕ
  laravelR : ℕ → ℕ
  appKeyR : ℕ → ℕ
  jwtR : ℕ → ℕ
  backupR : ℕ → ℕ
  saltR : ℕ → ℕ

/-- One entry of the `vault_db_users` list. -/
structure DbUser where
  name : List Char
  password : List Char
  privileges : List Char

/-- The rendered vault document fields of `main()`'s template. -/
structure VaultDoc where
  vault_mysql_root_password : List Char
  vault_postgres_password : List Char
  vault_adminer_password : List Char
  vault_adminer_password_hash : List Char
  vault_laravel_db_password : List Char
  vault_app_key : List Char
  vault_jwt_secret : List Char
  vault_backup_encryption_key : List Char
  vault_adminer_user : List Char
  vault_db_users : List DbUser

/-- The aggregate output of one generator invocation: the ordered password
mapping, the derived hashes, and the rendered document. -/
structure SecretsBundle where
  passwords : List (List Char × List Char)
  hashes : List (List Char × List Char)
  doc : VaultDoc

/-- The bundle-building portion of `main()`: generate the seven plaintext
secrets in order, derive the one Adminer hash, and assemble the vault
document exactly as the f-string template renders it. -/
def buildBundle (digest : List Char → List Char → List Char)
    (e : Entropy) : SecretsBundle :=
  let mysql_root := generate_password 20 (PyVal.str (s2l ("high"))) e.mysqlR
  let postgres := generate_password 20 (PyVal.str (s2l ("high"))) e.postgresR
  let adminer := generate_password 16 (PyVal.str (s2l ("medium"))) e.adminerR
  let laravel_db := generate_password 16 (PyVal.str (s2l ("medium"))) e.laravelR
  let app_key := s2l ("base64:") ++ token_urlsafe 32 e.appKeyR
  let jwt_secret := token_urlsafe 64 e.jwtR
  let backup_key := token_urlsafe 32 e.backupR
  let adminer_hash := hash_password digest adminer e.saltR
  ⟨[(s2l ("mysql_root"), mysql_root), (s2l ("postgres"), postgres),
    (s2l ("adminer"), adminer), (s2l ("laravel_db"), laravel_db),
    (s2l ("app_key"), app_key), (s2l ("jwt_secret"), jwt_secret),
    (s2l ("backup_key"), backup_key)],
   [(s2l ("adminer_hash"), adminer_hash)],
   ⟨mysql_root, postgres, adminer, adminer_hash, laravel_db, app_key,
    jwt_secret, backup_key, s2l ("dbadmin"),
    [⟨s2l ("laravel_user"), laravel_db,
      s2l ("SELECT,INSERT,UPDATE,DELETE,CREATE,ALTER,INDEX,DROP")⟩]⟩⟩

/-- The accept condition of claim C3, stated from the claim's words: the
coerced integer is in range and either outside the reserved set or one of
the two web-server exceptions. -/
def portSpecOk (n : ℤ) : Prop :=
  1 ≤ n ∧ n ≤ 65535 ∧ (n ∉ reserved_ports ∨ n = 80 ∨ n = 443)

instance (n : ℤ) : Decidable (portSpecOk n) := by
  unfold portSpecOk
  infer_instance

/-- The accept condition of claim C9, stated from the claim's words: a
non-empty string of at most 253 characters consisting of dot-separated
valid labels (no trailing-newline allowance). -/
def specDomainAccept (s : List Char) : Bool :=
  !s.isEmpty && decide (s.length ≤ 253) && (splitOnChar '.' s).all validLabel

/-- A character that is neither dangerous nor whitespace (so both the
replace loop and the strip of `sanitize_input` leave it alone). -/
def cleanChar (c : Char) : Bool := decide (c ∉ dangerous_chars) && !isSpacePy c

/-- Concrete digest function used by witness instantiations. -/
def digestW : List Char → List Char → List Char := fun pw saltv => pw ++ saltv

/-- First concrete salt oracle for witness instantiations. -/
def rOrcA : ℕ → ℕ := fun _ => 0

/-- Second concrete salt oracle for witness instantiations. -/
def rOrcB : ℕ → ℕ := fun _ => 1

/-- Concrete plaintext for witness instantiations. -/
def pwW : List Char := s2l ("hunter2AA")

deriving instance DecidableEq for Except

theorem choiceList_mem (l : List Char) (hl : l ≠ []) (k : ℕ) : choiceList l k ∈ l := by
  have hlen : 0 < l.length := List.length_pos.mpr hl
  have h : k % l.length < l.length := Nat.mod_lt _ hlen
  unfold choiceList
  rw [List.getD_eq_getElem?_getD, List.getElem?_eq_getElem h]
  exact List.getElem_mem h

/-- C1: one invocation of the bundle builder yields exactly the 7 plaintext
secrets `mysql_root`, `postgres`, `adminer`, `laravel_db`, `app_key`,
`jwt_secret`, `backup_key` (in order) plus exactly 1 derived hash (for
`adminer`); the document's `vault_laravel_db_password` equals the password
of the single `vault_db_users` entry, which is named `laravel_user` with
the fixed privilege string; the admin username is the constant `dbadmin`;
and `vault_app_key` carries the literal `base64:` marker. -/
theorem buildBundle_invariants (digest : List Char → List Char → List Char)
    (e : Entropy) :
    (buildBundle digest e).passwords.map (fun p => p.1) =
      [s2l ("mysql_root"), s2l ("postgres"), s2l ("adminer"), s2l ("laravel_db"),
       s2l ("app_key"), s2l ("jwt_secret"), s2l ("backup_key")] ∧
    (buildBundle digest e).passwords.length = 7 ∧
    (buildBundle digest e).hashes.map (fun p => p.1) = [s2l ("adminer_hash")] ∧
    (buildBundle digest e).hashes.length = 1 ∧
    (buildBundle digest e).doc.vault_db_users =
      [⟨s2l ("laravel_user"), (buildBundle digest e).doc.vault_laravel_db_password,
        s2l ("SELECT,INSERT,UPDATE,DELETE,CREATE,ALTER,INDEX,DROP")⟩] ∧
    (buildBundle digest e).doc.vault_adminer_user = s2l ("dbadmin") ∧
    ∃ t, (buildBundle digest e).doc.vault_app_key = s2l ("base64:") ++ t :=
  ⟨rfl, rfl, rfl, rfl, rfl, rfl, ⟨token_urlsafe 32 e.appKeyR, rfl⟩⟩

/-- C4 counterexample: the claim says `validate_port(79) = False` (and
likewise for 81 and 444), but none of 79, 81, 444 belongs to the reserved
blocklist, so the code accepts all three. -/
theorem validate_port_79_81_444_accepted :
    validate_port (PyVal.int 79) = Except.ok true ∧
    validate_port (PyVal.int 81) = Except.ok true ∧
    validate_port (PyVal.int 444) = Except.ok true := by decide

/-- C4 (amended): the five sampled ports 79, 80, 81, 443, 444 are all
accepted (only reserved ports other than 80/443 are rejected), and
`validate_port` is nevertheless not monotone over the integer line:
21 → accept, 22 → reject, 23 → accept. -/
theorem validate_port_nonmonotone_values :
    validate_port (PyVal.int 79) = Except.ok true ∧
    validate_port (PyVal.int 80) = Except.ok true ∧
    validate_port (PyVal.int 81) = Except.ok true ∧
    validate_port (PyVal.int 443) = Except.ok true ∧
    validate_port (PyVal.int 444) = Except.ok true ∧
    validate_port (PyVal.int 21) = Except.ok true ∧
    validate_port (PyVal.int 22) = Except.ok false ∧
    validate_port (PyVal.int 23) = Except.ok true ∧
    ¬ (∀ m n : ℤ, m ≤ n → validate_port (PyVal.int m) = Except.ok true →
        validate_port (PyVal.int n) = Except.ok true) := by
  refine ⟨by decide, by decide, by decide, by decide, by decide, by decide,
    by decide, by decide, fun h => ?_⟩
  exact absurd (h 21 22 (by decide) (by decide)) (by decide)

/-- C6: `generate_password` always returns exactly `n` characters, each
drawn from the alphabet selected by the complexity value: letters, digits
and the 8 symbols for `'high'`, letters and digits for anything else. -/
theorem generate_password_length_alphabet (n : ℕ) (complexity : PyVal) (r : ℕ → ℕ) :
    (generate_password n complexity r).length = n ∧
    (generate_password n complexity r).all
      (fun c => decide (c ∈ (if pyEqStr complexity (s2l ("high")) then
        password_chars_high else password_chars_medium))) = true := by
  constructor
  · simp [generate_password]
  · simp only [generate_password, List.all_eq_true, List.mem_map, List.mem_range,
      decide_eq_true_eq]
    rintro c ⟨i, _, rfl⟩
    by_cases h : pyEqStr complexity (s2l ("high")) = true
    · simp only [h, if_true]
      exact choiceList_mem _ (by decide) _
    · simp only [eq_false_of_ne_true h, if_false, ite_self]
      exact choiceList_mem _ (by decide) _

/-- C10: `validate_port` coerces booleans as their int value (so `True` is
validated as port 1 and accepted) and truncates finite floats toward zero
before the range and reserved-set checks (so 8.9 = 89/10 is validated as
port 8 and accepted). -/
theorem validate_port_coercion (b : Bool) (q : ℚ) :
    validate_port (PyVal.bool b) = validate_port (PyVal.int (if b then 1 else 0)) ∧
    validate_port (PyVal.float (PyFloatV.finite q)) =
      validate_port (PyVal.int (ratTrunc q)) ∧
    validate_port (PyVal.bool true) = Except.ok true ∧
    mkRat 89 10 = (89 : ℚ) / 10 ∧
    validate_port (PyVal.float (PyFloatV.finite (mkRat 89 10))) = Except.ok true := by
  refine ⟨rfl, rfl, by decide, ?_, by decide⟩
  rw [Rat.mkRat_eq_divInt, Rat.divInt_eq_div]
  norm_num

/-- C2 counterexample: on the input `float('inf')` the `int()` coercion
inside `validate_port` raises `OverflowError`, which the
`except (ValueError, TypeError)` clause does not catch, so the validator
raises instead of returning a boolean. -/
theorem validate_port_inf_raises :
    validate_port (PyVal.float PyFloatV.inf) = Except.error PyExc.overflowError ∧
    validate_port (PyVal.float PyFloatV.inf) ≠ Except.ok false ∧
    validate_port (PyVal.float PyFloatV.inf) ≠ Except.ok true := by decide

/-- C3 counterexample: `float('-inf')` is not integer-coercible, yet
`validate_port` does not reject it (return False) — the uncaught
`OverflowError` propagates. -/
theorem validate_port_negInf_not_rejected :
    pyIntCoerce (PyVal.float PyFloatV.negInf) = Except.error PyExc.overflowError ∧
    validate_port (PyVal.float PyFloatV.negInf) ≠ Except.ok false ∧
    validate_port (PyVal.float PyFloatV.negInf) ≠ Except.ok true := by decide

/-- C8 counterexample: the string `"8.1\n"` is accepted by
`validate_php_version` (Python's `$` matches before a trailing newline)
although it is not of the claimed exact three-character form
digit-dot-digit. -/
theorem validate_php_version_newline_counterexample :
    validate_php_version (PyVal.str (s2l ("8.1\n"))) = true ∧
    (s2l ("8.1\n")).length ≠ 3 ∧
    phpCore (s2l ("8.1\n")) = false := by decide

/-- C9 counterexample: the string `"localhost\n"` is accepted by
`validate_domain_name` (Python's `$` matches before a trailing newline)
although it does not consist of dot-separated alphanumeric/hyphen labels. -/
theorem validate_domain_name_newline_counterexample :
    validate_domain_name (PyVal.str (s2l ("localhost\n"))) = true ∧
    specDomainAccept (s2l ("localhost\n")) = false := by decide

theorem portDecide_iff (n : ℤ) : portDecide n = true ↔ portSpecOk n := by
  unfold portDecide portSpecOk
  split_ifs with h1 h2
  · simp only [Bool.false_eq_true, false_iff]
    rintro ⟨ha, hb, -⟩; omega
  · simp only [Bool.false_eq_true, false_iff]
    rintro ⟨-, -, hc⟩
    rcases h2 with ⟨hm, hw⟩
    rcases hc with hni | h80 | h443
    · exact hni hm
    · exact hw (by simp [web_ports, h80])
    · exact hw (by simp [web_ports, h443])
  · simp only [true_iff]
    push_neg at h1
    refine ⟨by omega, by omega, ?_⟩
    by_cases hm : n ∈ reserved_ports
    · right
      have hw : n ∈ web_ports := by
        by_contra hnw
        exact h2 ⟨hm, hnw⟩
      simpa [web_ports] using hw
    · exact Or.inl hm

/-- C2 (amended): every validator in the registry is embedded as a total
boolean function except `validate_port`, which returns a boolean exactly
when the input is not an infinite float (there the `int()` coercion raises
`OverflowError`, which `except (ValueError, TypeError)` does not catch);
on every input whose coercion raises `ValueError` or `TypeError` it
returns `False` rather than raising. -/
theorem validate_port_total_amended (v : PyVal) :
    ((∃ b, validate_port v = Except.ok b) ↔
      (v ≠ PyVal.float PyFloatV.inf ∧ v ≠ PyVal.float PyFloatV.negInf)) ∧
    ((pyIntCoerce v = Except.error PyExc.valueError ∨
      pyIntCoerce v = Except.error PyExc.typeError) →
      validate_port v = Except.ok false) := by
  constructor
  · constructor
    · rintro ⟨b, hb⟩
      constructor <;> rintro rfl <;> simp [validate_port, pyIntCoerce] at hb
    · rintro ⟨h1, h2⟩
      cases v with
      | str s =>
        cases hp : parseIntStr s with
        | none => exact ⟨false, by simp [validate_port, pyIntCoerce, hp]⟩
        | some n => exact ⟨portDecide n, by simp [validate_port, pyIntCoerce, hp]⟩
      | int n => exact ⟨portDecide n, rfl⟩
      | bool b => exact ⟨portDecide (if b then 1 else 0), rfl⟩
      | noneV => exact ⟨false, rfl⟩
      | float f =>
        cases f with
        | finite q => exact ⟨portDecide (ratTrunc q), rfl⟩
        | inf => exact absurd rfl h1
        | negInf => exact absurd rfl h2
        | nan => exact ⟨false, rfl⟩
  · intro h
    rcases h with h | h <;> simp [validate_port, h]

theorem validate_port_total_amended_witness :
    (∃ b, validate_port (PyVal.int 8080) = Except.ok b) ∧
    validate_port PyVal.noneV = Except.ok false :=
  ⟨(validate_port_total_amended (PyVal.int 8080)).1.mpr (by decide),
   (validate_port_total_amended PyVal.noneV).2 (Or.inr (by decide))⟩

/-- C3 (amended): `validate_port` accepts exactly the inputs whose `int()`
coercion yields an integer in [1, 65535] that is outside the reserved set
or equal to 80 or 443; every input whose coercion raises `ValueError` or
`TypeError` is rejected with `False`, while infinite floats raise
`OverflowError` instead of being rejected. -/
theorem validate_port_accept_iff (v : PyVal) :
    (validate_port v = Except.ok true ↔
      ∃ n, pyIntCoerce v = Except.ok n ∧ portSpecOk n) ∧
    ((pyIntCoerce v = Except.error PyExc.valueError ∨
      pyIntCoerce v = Except.error PyExc.typeError) →
      validate_port v = Except.ok false) := by
  constructor
  · cases h : pyIntCoerce v with
    | error e =>
      simp only [validate_port, h]
      split_ifs with he <;> simp
    | ok n =>
      simp [validate_port, h, portDecide_iff]
  · intro h
    rcases h with h | h <;> simp [validate_port, h]

theorem validate_port_accept_iff_witness :
    validate_port (PyVal.str (s2l ("abc"))) = Except.ok false ∧
    validate_port (PyVal.int 8080) = Except.ok true :=
  ⟨(validate_port_accept_iff (PyVal.str (s2l ("abc")))).2 (Or.inl (by decide)),
   (validate_port_accept_iff (PyVal.int 8080)).1.mpr ⟨8080, by decide, by decide⟩⟩

theorem reMatchEol_eq_true_iff (core : List Char → Bool) (s : List Char) :
    reMatchEol core s = true ↔
      (core s = true ∨ (s.getLast? = some '\n' ∧ core s.dropLast = true)) := by
  simp [reMatchEol, Bool.or_eq_true, Bool.and_eq_true, decide_eq_true_eq]

theorem specDomainAccept_iff (s : List Char) :
    specDomainAccept s = true ↔
      (s ≠ [] ∧ s.length ≤ 253 ∧ domainCore s = true) := by
  simp [specDomainAccept, domainCore, Bool.and_eq_true, List.isEmpty_iff,
    decide_eq_true_eq, and_assoc]

theorem domainCore_ne_nil {t : List Char} (h : domainCore t = true) : t ≠ [] := by
  rintro rfl
  exact absurd h (by decide)

/-- C8 (amended): `validate_php_version` accepts exactly the strings of the
form major-digit-in-{7,8}, dot, one decimal digit — or such a string
followed by a single trailing newline, which Python's `$` anchor also
accepts; every non-string is rejected. -/
theorem validate_php_version_amended (v : PyVal) :
    validate_php_version v = true ↔
      ∃ s, v = PyVal.str s ∧
        (phpCore s = true ∨ (s.getLast? = some '\n' ∧ phpCore s.dropLast = true)) := by
  cases v <;> simp [validate_php_version, reMatchEol_eq_true_iff]

theorem validate_php_version_amended_witness :
    validate_php_version (PyVal.str (s2l ("7.4"))) = true :=
  (validate_php_version_amended (PyVal.str (s2l ("7.4")))).mpr
    ⟨s2l ("7.4"), rfl, Or.inl (by decide)⟩

/-- C9 (amended): `validate_domain_name` accepts exactly the non-empty
strings of at most 253 characters that consist of dot-separated labels
(1–63 characters, alphanumeric ends, internal hyphens allowed) — or such a
string with a single trailing newline appended (total length still at most
253), which Python's `$` anchor also accepts; every non-string is
rejected. -/
theorem validate_domain_name_amended (v : PyVal) :
    validate_domain_name v = true ↔
      ∃ s, v = PyVal.str s ∧ s.length ≤ 253 ∧
        (specDomainAccept s = true ∨
          (s.getLast? = some '\n' ∧ specDomainAccept s.dropLast = true)) := by
  cases v with
  | str s =>
    simp only [validate_domain_name]
    split_ifs with hE hL
    · simp only [Bool.false_eq_true, false_iff]
      rintro ⟨t, ht, hlen, hc⟩
      injection ht with ht
      subst ht
      have hs : s = [] := List.isEmpty_iff.mp hE
      subst hs
      rcases hc with h | ⟨h, -⟩
      · rw [specDomainAccept_iff] at h
        exact h.1 rfl
      · simp at h
    · simp only [Bool.false_eq_true, false_iff]
      rintro ⟨t, ht, hlen, -⟩
      injection ht with ht
      subst ht
      omega
    · rw [reMatchEol_eq_true_iff]
      push_neg at hL
      constructor
      · rintro (h | ⟨hnl, hc⟩)
        · refine ⟨s, rfl, by omega, Or.inl ?_⟩
          rw [specDomainAccept_iff]
          exact ⟨fun hn => hE (by simp [hn]), by omega, h⟩
        · refine ⟨s, rfl, by omega, Or.inr ⟨hnl, ?_⟩⟩
          rw [specDomainAccept_iff]
          refine ⟨domainCore_ne_nil hc, ?_, hc⟩
          have := List.length_dropLast s
          omega
      · rintro ⟨t, ht, hlen, hc⟩
        injection ht with ht
        subst ht
        rcases hc with h | ⟨hnl, h⟩
        · exact Or.inl (specDomainAccept_iff _ |>.mp h).2.2
        · exact Or.inr ⟨hnl, (specDomainAccept_iff _ |>.mp h).2.2⟩
  | int n => simp [validate_domain_name]
  | bool b => simp [validate_domain_name]
  | float f => simp [validate_domain_name]
  | noneV => simp [validate_domain_name]

theorem validate_domain_name_amended_witness :
    validate_domain_name (PyVal.str (s2l ("dev.local"))) = true :=
  (validate_domain_name_amended (PyVal.str (s2l ("dev.local")))).mpr
    ⟨s2l ("dev.local"), rfl, by decide, Or.inl (by decide)⟩

theorem mksalt_length (r : ℕ → ℕ) : (mksalt r).length = 16 := by
  simp [mksalt]

theorem extractSalt_cryptCrypt (digest : List Char → List Char → List Char)
    (pw : List Char) (r : ℕ → ℕ) :
    extractSalt (cryptCrypt digest pw (mksalt r)) = mksalt r := by
  have h : extractSalt (cryptCrypt digest pw (mksalt r)) =
      (mksalt r ++ '$' :: digest pw (mksalt r)).take 16 := rfl
  rw [h, ← mksalt_length r, List.take_left]

/-- C7: two invocations of `hash_password` on the same plaintext with
independently drawn fresh salts (any two oracles producing distinct salts)
yield two different hash strings, and each hash independently verifies
against the plaintext: re-hashing the plaintext with the salt embedded in
the hash reproduces the hash.  Holds for every digest function. -/
theorem hash_password_fresh_salts (digest : List Char → List Char → List Char)
    (pw : List Char) (r1 r2 : ℕ → ℕ) (hne : mksalt r1 ≠ mksalt r2) :
    hash_password digest pw r1 ≠ hash_password digest pw r2 ∧
    cryptVerify digest pw (hash_password digest pw r1) = true ∧
    cryptVerify digest pw (hash_password digest pw r2) = true := by
  refine ⟨?_, ?_, ?_⟩
  · intro heq
    apply hne
    calc mksalt r1 = extractSalt (cryptCrypt digest pw (mksalt r1)) :=
          (extractSalt_cryptCrypt digest pw r1).symm
      _ = extractSalt (cryptCrypt digest pw (mksalt r2)) := congrArg extractSalt heq
      _ = mksalt r2 := extractSalt_cryptCrypt digest pw r2
  · simp [cryptVerify, hash_password, extractSalt_cryptCrypt]
  · simp [cryptVerify, hash_password, extractSalt_cryptCrypt]

theorem hash_password_fresh_salts_witness :
    hash_password digestW pwW rOrcA ≠ hash_password digestW pwW rOrcB ∧
    cryptVerify digestW pwW (hash_password digestW pwW rOrcA) = true ∧
    cryptVerify digestW pwW (hash_password digestW pwW rOrcB) = true :=
  hash_password_fresh_salts digestW pwW rOrcA rOrcB (by decide)

theorem digitChar_clean (k : ℕ) : cleanChar (digitChar k) = true := by
  unfold digitChar
  split <;> decide

theorem natReprAux_all_clean (fuel : ℕ) :
    ∀ n, (natReprAux fuel n).all cleanChar = true := by
  induction fuel with
  | zero => intro n; rfl
  | succ f ih =>
    intro n
    unfold natReprAux
    by_cases h : n < 10
    · simp [h, digitChar_clean]
    · simp [h, List.all_append, ih, digitChar_clean]

theorem intRepr_all_clean (i : ℤ) : (intRepr i).all cleanChar = true := by
  have hd : cleanChar '-' = true := by decide
  unfold intRepr
  split_ifs with h <;> simp [List.all_cons, hd, natRepr, natReprAux_all_clean]

theorem floatRepr_finite_clean (q : ℚ) :
    (floatRepr (PyFloatV.finite q)).all cleanChar = true := by
  have hs : cleanChar '/' = true := by decide
  simp [floatRepr, List.all_append, List.all_cons, hs, natRepr,
    natReprAux_all_clean, intRepr_all_clean]

theorem cleanChar_not_dangerous {x : Char} (h : cleanChar x = true) :
    x ∉ dangerous_chars := by
  simp only [cleanChar, Bool.and_eq_true, decide_eq_true_eq] at h
  exact h.1

theorem cleanChar_not_space {x : Char} (h : cleanChar x = true) :
    isSpacePy x = false := by
  simp only [cleanChar, Bool.and_eq_true, Bool.not_eq_true'] at h
  exact h.2

theorem foldl_replaceDel_eq_self (ds : List Char) :
    ∀ l : List Char, (∀ x ∈ l, x ∉ ds) → ds.foldl replaceDel l = l := by
  induction ds with
  | nil => intro l _; rfl
  | cons d ds ih =>
    intro l h
    have h1 : replaceDel l d = l := by
      apply List.filter_eq_self.mpr
      intro a ha
      simp only [Bool.not_eq_true', beq_eq_false_iff_ne]
      exact fun had => (h a ha) (by simp [had])
    rw [List.foldl_cons, h1]
    exact ih l (fun x hx hmem => (h x hx) (List.mem_cons_of_mem d hmem))

theorem dropWhile_eq_self_of_all (p : Char → Bool) (l : List Char)
    (h : ∀ x ∈ l, p x = false) : l.dropWhile p = l := by
  cases l with
  | nil => rfl
  | cons a t =>
    rw [List.dropWhile_cons]
    simp [h a (List.mem_cons_self a t)]

theorem stripPy_eq_self (l : List Char) (h : ∀ x ∈ l, isSpacePy x = false) :
    stripPy l = l := by
  unfold stripPy
  rw [dropWhile_eq_self_of_all _ _ h,
    dropWhile_eq_self_of_all _ _ (fun x hx => h x (List.mem_reverse.mp hx)),
    List.reverse_reverse]

theorem sanitize_pipeline_eq_self (l : List Char) (h : l.all cleanChar = true) :
    stripPy (dangerous_chars.foldl replaceDel l) = l := by
  rw [List.all_eq_true] at h
  rw [foldl_replaceDel_eq_self _ l (fun x hx => cleanChar_not_dangerous (h x hx))]
  exact stripPy_eq_self l (fun x hx => cleanChar_not_space (h x hx))

/-- C5: on every scalar input, `sanitize_input` behaves exactly as
coerce-to-string, delete every occurrence of each dangerous character,
then trim surrounding whitespace (for non-string scalars the deletion and
trim are no-ops on the stringified value, so the early `str(input)` return
coincides with the full pipeline); in particular the two sample values
hold, and no input is rejected or raises. -/
theorem sanitize_input_spec :
    (∀ v : PyVal, sanitize_input v =
      stripPy (dangerous_chars.foldl replaceDel (pyStr v))) ∧
    sanitize_input (PyVal.str (s2l ("a;b\x60c"))) = s2l ("abc") ∧
    sanitize_input (PyVal.int 42) = s2l ("42") := by
  refine ⟨?_, by decide, by decide⟩
  intro v
  cases v with
  | str s => rfl
  | int n => exact (sanitize_pipeline_eq_self _ (intRepr_all_clean n)).symm
  | bool b => cases b <;> exact (sanitize_pipeline_eq_self _ (by decide)).symm
  | float f =>
    cases f with
    | finite q => exact (sanitize_pipeline_eq_self _ (floatRepr_finite_clean q)).symm
    | inf => exact (sanitize_pipeline_eq_self _ (by decide)).symm
    | negInf => exact (sanitize_pipeline_eq_self _ (by decide)).symm
    | nan => exact (sanitize_pipeline_eq_self _ (by decide)).symm
  | noneV => exact (sanitize_pipeline_eq_self _ (by decide)).symm
